import Mathlib

/-!
Verification development for the Stealth Golf physics and perception core.

The Python source is shallowly embedded over `ℚ`: Python floats become exact
rationals, and the transcendental library calls (`math.sqrt` via `** 0.5`,
`math.cos`, `math.sin`, `math.atan2`, float `**`) are passed in as explicit
function parameters (`sqrtf`, `cosf`, `sinf`, `atan2f`, `powf`), so each
theorem states exactly which analytic facts about those calls it relies on.
Concrete instantiations use `Rat.sqrt` (exact on squares) and simple closed
rational functions.
-/

namespace StealthGolf

/-- A 2-D point/vector, mirroring the `(x, y)` float pairs of the source. -/
abbrev Pt := ℚ × ℚ

/-- An axis-aligned wall rectangle `(x, y, w, h)` as used throughout the source. -/
abbrev Rect := ℚ × ℚ × ℚ × ℚ

/-- `clamp(v, lo, hi)` from `common/geometry.py`. -/
def clamp (v lo hi : ℚ) : ℚ := if v < lo then lo else if v > hi then hi else v

/-- `length(vx, vy)` from `common/geometry.py`: `(vx*vx + vy*vy) ** 0.5`,
with the square root supplied as the explicit parameter `sqrtf`. -/
def length (sqrtf : ℚ → ℚ) (vx vy : ℚ) : ℚ := sqrtf (vx * vx + vy * vy)

/-- `normalize(vx, vy)` from `common/geometry.py`: unit vector, or `(0,0)` when
the computed length is zero. -/
def normalize (sqrtf : ℚ → ℚ) (vx vy : ℚ) : Pt :=
  let l := length sqrtf vx vy
  if l = 0 then (0, 0) else (vx / l, vy / l)

/-- The result tuple `(hit, t, u, ix, iy)` of `seg_intersect`. -/
structure SegHit where
  hit : Bool
  t : ℚ
  u : ℚ
  ix : ℚ
  iy : ℚ
deriving Repr, DecidableEq

/-- `seg_intersect(p1, p2, p3, p4)` from `common/geometry.py`: parametric
intersection of segment `p1p2` with segment `p3p4`; no intersection when the
determinant magnitude is below `1e-9` or a parameter leaves `[0, 1]`. -/
def seg_intersect (p1 p2 p3 p4 : Pt) : SegHit :=
  let x1 := p1.1; let y1 := p1.2
  let x2 := p2.1; let y2 := p2.2
  let x3 := p3.1; let y3 := p3.2
  let x4 := p4.1; let y4 := p4.2
  let den := (x1 - x2) * (y3 - y4) - (y1 - y2) * (x3 - x4)
  if |den| < 1 / 1000000000 then ⟨false, 0, 0, 0, 0⟩
  else
    let t := ((x1 - x3) * (y3 - y4) - (y1 - y3) * (x3 - x4)) / den
    let u := ((x1 - x3) * (y1 - y2) - (y1 - y3) * (x1 - x2)) / den
    if 0 ≤ t ∧ t ≤ 1 ∧ 0 ≤ u ∧ u ≤ 1 then
      ⟨true, t, u, x1 + t * (x2 - x1), y1 + t * (y2 - y1)⟩
    else ⟨false, 0, 0, 0, 0⟩

/-- The four edges of a wall rectangle, in the order used by both
`ray_rect_nearest_hit` and `los_blocked`: bottom, right, top, left. -/
def rectEdges (w : Rect) : List (Pt × Pt) :=
  let rx := w.1; let ry := w.2.1; let rw := w.2.2.1; let rh := w.2.2.2
  [ ((rx, ry), (rx + rw, ry)),
    ((rx + rw, ry), (rx + rw, ry + rh)),
    ((rx + rw, ry + rh), (rx, ry + rh)),
    ((rx, ry + rh), (rx, ry)) ]

/-- `ray_rect_nearest_hit` from `common/geometry.py`: intersect the ray
(as a segment of length `99999`) with the four rectangle edges and keep the
hit with the smallest parameter `t` (first such hit on ties). -/
def ray_rect_nearest_hit (ox oy dirx diry : ℚ) (rect : Rect) : Option Pt :=
  let farx := ox + dirx * 99999
  let fary := oy + diry * 99999
  let best := (rectEdges rect).foldl
    (fun (acc : Option (ℚ × Pt)) e =>
      let s := seg_intersect (ox, oy) (farx, fary) e.1 e.2
      if s.hit then
        match acc with
        | none => some (s.t, (s.ix, s.iy))
        | some (bt, bp) => if s.t < bt then some (s.t, (s.ix, s.iy)) else some (bt, bp)
      else acc) none
  best.map (fun b => b.2)

/-- `los_blocked(ox, oy, tx, ty, walls)` from `common/geometry.py`: true iff
the segment from `(ox,oy)` to `(tx,ty)` meets some wall edge at a parameter
`t` with `0 < t < 1 - 1e-6`. -/
def los_blocked (ox oy tx ty : ℚ) (walls : List Rect) : Bool :=
  walls.any fun w =>
    (rectEdges w).any fun e =>
      let s := seg_intersect (ox, oy) (tx, ty) e.1 e.2
      s.hit && decide (0 < s.t) && decide (s.t < 1 - 1 / 1000000)

/-- `LOW_SPEED_THRESHOLD` of `stealth_golf_kivy_loadlevel_fixed.py`. -/
def LOW_SPEED_THRESHOLD : ℚ := 140

/-- `LOW_SPEED_DAMP_BASE` of `stealth_golf_kivy_loadlevel_fixed.py`. -/
def LOW_SPEED_DAMP_BASE : ℚ := 78 / 100

/-- `LOW_SPEED_DAMP_NEAR` of `stealth_golf_kivy_loadlevel_fixed.py`. -/
def LOW_SPEED_DAMP_NEAR : ℚ := 92 / 100

/-- The `Ball` of `stealth_golf_kivy_loadlevel_fixed.py`: position, velocity,
radius, smoke (concealment) timer and the motion flag. -/
structure KBall where
  x : ℚ
  y : ℚ
  vx : ℚ
  vy : ℚ
  r : ℚ
  smoke_timer : ℚ
  in_motion : Bool
deriving Repr, DecidableEq

/-- `Ball.apply_impulse` (kivy variants): adds the impulse to the velocity and
sets `in_motion = True` unconditionally. -/
def KBall.apply_impulse (b : KBall) (ix iy : ℚ) : KBall :=
  { b with vx := b.vx + ix, vy := b.vy + iy, in_motion := true }

/-- The body of the per-wall collision loop in `Ball.update`
(`stealth_golf_kivy_loadlevel_fixed.py`): circle-vs-AABB test by clamping,
positional push (minimum-edge rule when the center is inside the rectangle),
and `v -= 1.8 * vn * n` velocity correction when moving into the surface. -/
def resolveWall (sqrtf : ℚ → ℚ) (b : KBall) (w : Rect) : KBall :=
  let rx := w.1; let ry := w.2.1; let rw := w.2.2.1; let rh := w.2.2.2
  let cx := b.x; let cy := b.y; let r := b.r
  let closest_x := clamp cx rx (rx + rw)
  let closest_y := clamp cy ry (ry + rh)
  let dx := cx - closest_x
  let dy := cy - closest_y
  let d2 := dx * dx + dy * dy
  if d2 < r * r then
    let d := if d2 > 0 then sqrtf d2 else 0
    let p : Pt :=
      if d = 0 then
        let left := |cx - rx|; let right := |rx + rw - cx|
        let bottom := |cy - ry|; let top := |ry + rh - cy|
        let m := min (min left right) (min bottom top)
        if m = left then (-r, 0)
        else if m = right then (r, 0)
        else if m = bottom then (0, -r)
        else (0, r)
      else
        let nx := dx / d; let ny := dy / d
        let push := r - d
        (nx * push, ny * push)
    let b1 := { b with x := b.x + p.1, y := b.y + p.2 }
    if d2 > 0 then
      let n := normalize sqrtf p.1 p.2
      let vn := b1.vx * n.1 + b1.vy * n.2
      if vn < 0 then
        { b1 with vx := b1.vx - 18 / 10 * vn * n.1, vy := b1.vy - 18 / 10 * vn * n.2 }
      else b1
    else b1
  else b

/-- The explicit-Euler integration step of `Ball.update`. -/
def KBall.integrate (b : KBall) (dt : ℚ) : KBall :=
  { b with x := b.x + b.vx * dt, y := b.y + b.vy * dt }

/-- The wall-collision loop of `Ball.update`. -/
def KBall.collide (sqrtf : ℚ → ℚ) (b : KBall) (walls : List Rect) : KBall :=
  walls.foldl (resolveWall sqrtf) b

/-- The friction / low-speed damping stage of `Ball.update`
(`stealth_golf_kivy_loadlevel_fixed.py`): stop below speed 5, otherwise base
friction `0.985`, plus below `LOW_SPEED_THRESHOLD` a blended extra damping
factor raised to `max(1, dt*60)` (via the float-power parameter `powf`), and
a snap stop when the damped speed falls below 30. -/
def KBall.applyFriction (sqrtf : ℚ → ℚ) (powf : ℚ → ℚ → ℚ) (b : KBall) (dt : ℚ) : KBall :=
  let speed := length sqrtf b.vx b.vy
  if speed < 5 then { b with vx := 0, vy := 0, in_motion := false }
  else
    let base_fric : ℚ := 985 / 1000
    let vx1 := b.vx * base_fric
    let vy1 := b.vy * base_fric
    if speed < LOW_SPEED_THRESHOLD then
      let t := max 0 (min 1 (1 - speed / LOW_SPEED_THRESHOLD))
      let per_frame := LOW_SPEED_DAMP_BASE * (1 - t) + LOW_SPEED_DAMP_NEAR * t
      let damp := powf per_frame (max 1 (dt * 60))
      let vx2 := vx1 * damp
      let vy2 := vy1 * damp
      if length sqrtf vx2 vy2 < 30 then { b with vx := 0, vy := 0, in_motion := false }
      else { b with vx := vx2, vy := vy2 }
    else { b with vx := vx1, vy := vy1 }

/-- The smoke-timer decrement at the end of `Ball.update`. -/
def KBall.tickSmoke (b : KBall) (dt : ℚ) : KBall :=
  if b.smoke_timer > 0 then { b with smoke_timer := max 0 (b.smoke_timer - dt) } else b

/-- `Ball.update(dt, walls)` of `stealth_golf_kivy_loadlevel_fixed.py`:
integrate, collide against each wall in order, apply friction/damping, tick
the smoke timer. `powf b e` stands for the float power `b ** e`. -/
def KBall.update (sqrtf : ℚ → ℚ) (powf : ℚ → ℚ → ℚ) (b : KBall) (dt : ℚ)
    (walls : List Rect) : KBall :=
  KBall.tickSmoke
    (KBall.applyFriction sqrtf powf
      (KBall.collide sqrtf (b.integrate dt) walls) dt) dt

/-- The `Agent` of `stealth_golf_kivy_loadlevel_fixed.py`: patrol endpoints
`(ax,ay)`/`(bx,b_y)` (`by` is a Lean keyword), current position, patrol
direction sign, speeds, FOV half-angle (radians), cone length, current facing
vector, chase flag, ray-sweep step count. -/
structure KAgent where
  ax : ℚ
  ay : ℚ
  bx : ℚ
  b_y : ℚ
  x : ℚ
  y : ℚ
  dir : ℤ
  patrol_speed : ℚ
  chase_speed : ℚ
  fov_half : ℚ
  cone_len : ℚ
  look_dirx : ℚ
  look_diry : ℚ
  chasing : Bool
  ray_steps : ℕ
deriving Repr, DecidableEq

/-- The perception block at the top of `Agent.update`: the ball is visible iff
it is not concealed by smoke, lies within `cone_len`, its direction passes the
dot-product test against `cos(fov_half + 1e-6)` (supplied through `cosf`), and
line of sight is not blocked by a wall. -/
def KAgent.ballVisible (sqrtf cosf : ℚ → ℚ) (a : KAgent) (ball : KBall)
    (walls : List Rect) : Bool :=
  if ball.smoke_timer > 0 then false
  else
    let dx := ball.x - a.x
    let dy := ball.y - a.y
    let dist := length sqrtf dx dy
    if dist ≤ a.cone_len then
      let v := normalize sqrtf dx dy
      decide (v.1 * a.look_dirx + v.2 * a.look_diry ≥ cosf (a.fov_half + 1 / 1000000))
        && !(los_blocked a.x a.y ball.x ball.y walls)
    else false

/-- `Agent.update(dt, ball, walls)` of `stealth_golf_kivy_loadlevel_fixed.py`:
recompute `chasing` from this tick's perception, then either chase the ball
directly or patrol between the endpoints, snapping exactly onto the target
endpoint when the remaining distance fits into this tick's step. Returns the
updated agent and the catch flag. -/
def KAgent.update (sqrtf cosf : ℚ → ℚ) (a : KAgent) (dt : ℚ) (ball : KBall)
    (walls : List Rect) : KAgent × Bool :=
  let visible := KAgent.ballVisible sqrtf cosf a ball walls
  let a0 := { a with chasing := visible }
  let a' :=
    if a0.chasing then
      let vx := ball.x - a0.x
      let vy := ball.y - a0.y
      let dist := length sqrtf vx vy
      if dist > 1 / 1000 then
        let vxn := vx / dist
        let vyn := vy / dist
        { a0 with x := a0.x + vxn * a0.chase_speed * dt,
                  y := a0.y + vyn * a0.chase_speed * dt,
                  look_dirx := vxn, look_diry := vyn }
      else a0
    else
      let tx := if a0.dir > 0 then a0.bx else a0.ax
      let ty := if a0.dir > 0 then a0.b_y else a0.ay
      let vx := tx - a0.x
      let vy := ty - a0.y
      let dist := length sqrtf vx vy
      let step := a0.patrol_speed * dt
      if dist ≤ step then
        let a1 := { a0 with x := tx, y := ty, dir := -a0.dir }
        if a1.dir > 0 then
          let n := normalize sqrtf (a1.bx - a1.ax) (a1.b_y - a1.ay)
          { a1 with look_dirx := n.1, look_diry := n.2 }
        else
          let n := normalize sqrtf (a1.ax - a1.bx) (a1.ay - a1.b_y)
          { a1 with look_dirx := n.1, look_diry := n.2 }
      else
        let p : Pt := if dist ≠ 0 then (vx / dist, vy / dist) else (0, 0)
        { a0 with x := a0.x + p.1 * step, y := a0.y + p.2 * step,
                  look_dirx := p.1, look_diry := p.2 }
  (a', decide (length sqrtf (ball.x - a'.x) (ball.y - a'.y) ≤ ball.r + 10))

/-- The per-wall accumulator step of the ray sweep in
`Agent.compute_flashlight_polygon`: keep the hit with the smaller squared
distance from the agent (the earlier wall on ties). -/
def nearestHitStep (o : Pt) (dx dy : ℚ) (acc : Option (ℚ × Pt)) (rect : Rect) :
    Option (ℚ × Pt) :=
  match ray_rect_nearest_hit o.1 o.2 dx dy rect with
  | none => acc
  | some pt =>
    let d2 := (pt.1 - o.1) ^ 2 + (pt.2 - o.2) ^ 2
    match acc with
    | none => some (d2, pt)
    | some (nd2, bp) => if d2 < nd2 then some (d2, pt) else some (nd2, bp)

/-- `Agent.compute_flashlight_polygon(walls)` of
`stealth_golf_kivy_loadlevel_fixed.py`: sweep `ray_steps + 1` rays from
`base + fov_half` down to `base - fov_half`, keep the nearest wall hit per
ray, and emit it unless it is farther than `cone_len`, in which case emit the
full-length endpoint. `cosf`, `sinf`, `atan2f` supply the trig calls. -/
def KAgent.compute_flashlight_polygon (cosf sinf : ℚ → ℚ) (atan2f : ℚ → ℚ → ℚ)
    (a : KAgent) (walls : List Rect) : List Pt :=
  let base_ang := atan2f a.look_diry a.look_dirx
  let start_ang := base_ang + a.fov_half
  let end_ang := base_ang - a.fov_half
  (List.range (a.ray_steps + 1)).map fun (i : ℕ) =>
    let t := (i : ℚ) / (a.ray_steps : ℚ)
    let ang := start_ang + (end_ang - start_ang) * t
    let dx := cosf ang
    let dy := sinf ang
    let tx := a.x + dx * a.cone_len
    let ty := a.y + dy * a.cone_len
    let best := walls.foldl (nearestHitStep (a.x, a.y) dx dy) none
    match best with
    | none => (tx, ty)
    | some (nd2, hp) => if nd2 > a.cone_len * a.cone_len then (tx, ty) else hp

/-- Modelled from the claim wording for the flashlight polygon: pick, among
the per-wall nearest hits of a ray, the one nearest by squared distance to
`o` (the earlier one on ties), by structural recursion over the hit list. -/
def selNearest (o : Pt) : List Pt → Option (ℚ × Pt)
  | [] => none
  | p :: l =>
    let d2 := (p.1 - o.1) ^ 2 + (p.2 - o.2) ^ 2
    match selNearest o l with
    | none => some (d2, p)
    | some (bd2, bp) => if d2 ≤ bd2 then some (d2, p) else some (bd2, bp)

/-- The flashlight polygon as the claim describes it: `ray_steps + 1` points
at evenly spaced angles sweeping from `facing + fov_half` to
`facing - fov_half`; each point is the nearest wall hit (by squared distance
over all walls) when that hit lies within `cone_len`, and otherwise the
full-length cone endpoint. -/
def fovPolygonSpec (cosf sinf : ℚ → ℚ) (atan2f : ℚ → ℚ → ℚ)
    (a : KAgent) (walls : List Rect) : List Pt :=
  let base_ang := atan2f a.look_diry a.look_dirx
  (List.range (a.ray_steps + 1)).map fun (i : ℕ) =>
    let ang := base_ang + a.fov_half - 2 * a.fov_half * ((i : ℚ) / (a.ray_steps : ℚ))
    let dx := cosf ang
    let dy := sinf ang
    let hits := walls.filterMap (ray_rect_nearest_hit a.x a.y dx dy)
    match selNearest (a.x, a.y) hits with
    | some (d2, p) =>
      if d2 ≤ a.cone_len * a.cone_len then p
      else (a.x + dx * a.cone_len, a.y + dy * a.cone_len)
    | none => (a.x + dx * a.cone_len, a.y + dy * a.cone_len)

/-- Constant-zero square root: agrees with the real square root at `0`, the
only point where some runs evaluate it. -/
def sqrtZero : ℚ → ℚ := fun _ => 0

/-- Power function used where the exponent is `1` (as real `x ** 1 = x`). -/
def powIdent : ℚ → ℚ → ℚ := fun x _ => x

/-- Exact lookup table for the square roots taken in the C4 counterexample
run: `sqrt 10000 = 100` and `sqrt (80.77^2) = 80.77`. -/
def sqrtLut : ℚ → ℚ :=
  fun q => if q = 10000 then 100 else if q = 65237929 / 10000 then 8077 / 100 else 0

/-- A cosine stand-in returning `1/2` (a value the real cosine attains on
`fov_half + 1e-6` for `fov_half = arccos(1/2) - 1e-6 > 0`). -/
def cosHalfConst : ℚ → ℚ := fun _ => 1 / 2

/-- A patrol agent one unit short of endpoint B, used as a concrete input. -/
def agentP : KAgent := ⟨0, 0, 10, 0, 9, 0, 1, 70, 189 / 2, 12 / 25, 220, 1, 0, false, 56⟩

/-- An agent at the origin with default-like cone parameters. -/
def agentZero : KAgent := ⟨0, 0, 200, 0, 0, 0, 1, 70, 189 / 2, 12 / 25, 220, 1, 0, false, 56⟩

/-- A smoke-concealed ball far away, used as a concrete input. -/
def ballSmoke : KBall := ⟨500, 500, 0, 0, 14, 1, false⟩

/-- A motionless unconcealed ball at the origin. -/
def ballAtOrigin : KBall := ⟨0, 0, 0, 0, 14, 0, false⟩

/-- The accumulator merge implicit in the flashlight ray sweep: keep the
candidate with the smaller squared distance, the left one on ties. -/
def mergeNear : Option (ℚ × Pt) → Option (ℚ × Pt) → Option (ℚ × Pt)
  | acc, none => acc
  | none, some b => some b
  | some a, some b => if b.1 < a.1 then some b else some a

end StealthGolf

namespace StealthGolf

/-! ## Helper lemmas -/

/-- `Rat.sqrt` is an exact square root on squares of nonnegative rationals,
the property every theorem below assumes of the `sqrtf` parameter. -/
theorem ratSqrtRoot : ∀ q : ℚ, 0 ≤ q → Rat.sqrt (q * q) = q := fun q hq => by
  rw [Rat.sqrt_eq, abs_of_nonneg hq]

/-- A degenerate segment (both endpoints equal) never registers a hit. -/
theorem seg_intersect_self (p q r : Pt) : (seg_intersect p p q r).hit = false := by
  simp only [seg_intersect]
  norm_num

/-- Line of sight from a point to itself is never blocked. -/
theorem los_blocked_self (x y : ℚ) (walls : List Rect) :
    los_blocked x y x y walls = false := by
  simp only [los_blocked, List.any_eq_false]
  intro w _ h
  simp only [List.any_eq_true] at h
  obtain ⟨e, _, he⟩ := h
  simp [seg_intersect_self] at he

/-- Swapping the endpoints of the first segment negates the determinant,
preserves the hit flag, and maps the parameter `t` to `1 - t`. -/
theorem seg_intersect_rev (p1 p2 p3 p4 : Pt) :
    (seg_intersect p2 p1 p3 p4).hit = (seg_intersect p1 p2 p3 p4).hit ∧
    ((seg_intersect p1 p2 p3 p4).hit = true →
      (seg_intersect p2 p1 p3 p4).t = 1 - (seg_intersect p1 p2 p3 p4).t) := by
  obtain ⟨x1, y1⟩ := p1
  obtain ⟨x2, y2⟩ := p2
  obtain ⟨x3, y3⟩ := p3
  obtain ⟨x4, y4⟩ := p4
  simp only [seg_intersect]
  set D := (x1 - x2) * (y3 - y4) - (y1 - y2) * (x3 - x4) with hD
  have hD2 : (x2 - x1) * (y3 - y4) - (y2 - y1) * (x3 - x4) = -D := by rw [hD]; ring
  rw [hD2, abs_neg]
  by_cases hsmall : |D| < 1 / 1000000000
  · rw [if_pos hsmall, if_pos hsmall]
    simp
  · rw [if_neg hsmall, if_neg hsmall]
    have hD0 : D ≠ 0 := by
      intro h
      apply hsmall
      rw [h]
      norm_num
    have ht : ((x2 - x3) * (y3 - y4) - (y2 - y3) * (x3 - x4)) / -D
        = 1 - ((x1 - x3) * (y3 - y4) - (y1 - y3) * (x3 - x4)) / D := by
      have hnum : (x2 - x3) * (y3 - y4) - (y2 - y3) * (x3 - x4)
          = ((x1 - x3) * (y3 - y4) - (y1 - y3) * (x3 - x4)) - D := by
        rw [hD]; ring
      rw [hnum, div_neg, sub_div, div_self hD0]
      ring
    have hu : ((x2 - x3) * (y2 - y1) - (y2 - y3) * (x2 - x1)) / -D
        = ((x1 - x3) * (y1 - y2) - (y1 - y3) * (x1 - x2)) / D := by
      have hnum : (x2 - x3) * (y2 - y1) - (y2 - y3) * (x2 - x1)
          = -((x1 - x3) * (y1 - y2) - (y1 - y3) * (x1 - x2)) := by ring
      rw [hnum, neg_div_neg_eq]
    rw [ht, hu]
    set t := ((x1 - x3) * (y3 - y4) - (y1 - y3) * (x3 - x4)) / D with hT
    set u := ((x1 - x3) * (y1 - y2) - (y1 - y3) * (x1 - x2)) / D with hU
    have hcc : (0 ≤ 1 - t ∧ 1 - t ≤ 1 ∧ 0 ≤ u ∧ u ≤ 1)
        ↔ (0 ≤ t ∧ t ≤ 1 ∧ 0 ≤ u ∧ u ≤ 1) := by
      constructor <;> rintro ⟨h1, h2, h3, h4⟩ <;>
        exact ⟨by linarith, by linarith, h3, h4⟩
    by_cases hc : 0 ≤ t ∧ t ≤ 1 ∧ 0 ≤ u ∧ u ≤ 1
    · rw [if_pos hc, if_pos (hcc.mpr hc)]
      simp
    · rw [if_neg hc, if_neg (fun hx => hc (hcc.mp hx))]
      simp

/-- In the positive-distance collision case with the ball moving into the
surface, `resolveWall` pushes the ball out along the unit normal
`(dx/d, dy/d)` by `r - d` and removes `1.8` times the normal velocity
component. -/
theorem resolveWall_bounce (sqrtf : ℚ → ℚ) (b : KBall) (rx ry rw rh d dx dy : ℚ)
    (hroot : ∀ q : ℚ, 0 ≤ q → sqrtf (q * q) = q)
    (hd : 0 < d) (hr : 0 < b.r)
    (hdx : dx = b.x - clamp b.x rx (rx + rw))
    (hdy : dy = b.y - clamp b.y ry (ry + rh))
    (hdd : dx * dx + dy * dy = d * d)
    (hcol : dx * dx + dy * dy < b.r * b.r)
    (hvn : b.vx * (dx / d) + b.vy * (dy / d) < 0) :
    resolveWall sqrtf b (rx, ry, rw, rh)
      = { b with x := b.x + dx / d * (b.r - d), y := b.y + dy / d * (b.r - d),
                 vx := b.vx - 18 / 10 * (b.vx * (dx / d) + b.vy * (dy / d)) * (dx / d),
                 vy := b.vy - 18 / 10 * (b.vx * (dx / d) + b.vy * (dy / d)) * (dy / d) } := by
  have hpos : dx * dx + dy * dy > 0 := by rw [hdd]; exact mul_pos hd hd
  have hdr : d < b.r := by nlinarith
  have hpush : 0 < b.r - d := by linarith
  have hsq : sqrtf (dx * dx + dy * dy) = d := by rw [hdd]; exact hroot d hd.le
  have harg : dx / d * (b.r - d) * (dx / d * (b.r - d))
      + dy / d * (b.r - d) * (dy / d * (b.r - d)) = (b.r - d) * (b.r - d) := by
    field_simp
    linear_combination ((b.r - d) * (b.r - d)) * hdd
  simp only [resolveWall, length, normalize]
  rw [← hdx, ← hdy]
  simp only [if_pos hcol, if_pos hpos, hsq, if_neg hd.ne']
  simp only [harg, hroot (b.r - d) hpush.le, if_neg hpush.ne']
  simp only [mul_div_cancel_right₀ _ hpush.ne']
  simp only [if_pos hvn]

/-- With zero velocity the friction stage zeroes the velocity and clears
`in_motion`, leaving position untouched. -/
theorem applyFriction_zero_vel (sqrtf : ℚ → ℚ) (powf : ℚ → ℚ → ℚ) (c : KBall)
    (dt : ℚ) (h0 : sqrtf 0 = 0) (hx : c.vx = 0) (hy : c.vy = 0) :
    KBall.applyFriction sqrtf powf c dt = { c with vx := 0, vy := 0, in_motion := false } := by
  simp only [KBall.applyFriction, length, hx, hy]
  norm_num [h0]

/-- The smoke tick touches only the smoke timer. -/
theorem tickSmoke_fields (c : KBall) (dt : ℚ) :
    (KBall.tickSmoke c dt).x = c.x ∧ (KBall.tickSmoke c dt).y = c.y ∧
    (KBall.tickSmoke c dt).vx = c.vx ∧ (KBall.tickSmoke c dt).vy = c.vy ∧
    (KBall.tickSmoke c dt).in_motion = c.in_motion := by
  simp only [KBall.tickSmoke]
  split_ifs <;> simp

/-- With the center strictly inside the rectangle, `resolveWall` takes the
zero-distance branch: it moves the center by exactly `r` along the outward
direction of the minimum of the four edge distances (ties resolved in source
order left, right, bottom, top) and leaves the velocity alone. -/
theorem resolveWall_inside (sqrtf : ℚ → ℚ) (b : KBall) (rx ry rw rh : ℚ)
    (hr : 0 < b.r)
    (hl : rx < b.x) (hri : b.x < rx + rw) (hb : ry < b.y) (htp : b.y < ry + rh) :
    ((resolveWall sqrtf b (rx, ry, rw, rh)).vx = b.vx ∧
     (resolveWall sqrtf b (rx, ry, rw, rh)).vy = b.vy ∧
     (resolveWall sqrtf b (rx, ry, rw, rh)).in_motion = b.in_motion) ∧
    ((b.x - rx ≤ rx + rw - b.x ∧ b.x - rx ≤ b.y - ry ∧ b.x - rx ≤ ry + rh - b.y ∧
        (resolveWall sqrtf b (rx, ry, rw, rh)).x = b.x - b.r ∧
        (resolveWall sqrtf b (rx, ry, rw, rh)).y = b.y) ∨
     (rx + rw - b.x ≤ b.x - rx ∧ rx + rw - b.x ≤ b.y - ry ∧ rx + rw - b.x ≤ ry + rh - b.y ∧
        (resolveWall sqrtf b (rx, ry, rw, rh)).x = b.x + b.r ∧
        (resolveWall sqrtf b (rx, ry, rw, rh)).y = b.y) ∨
     (b.y - ry ≤ b.x - rx ∧ b.y - ry ≤ rx + rw - b.x ∧ b.y - ry ≤ ry + rh - b.y ∧
        (resolveWall sqrtf b (rx, ry, rw, rh)).x = b.x ∧
        (resolveWall sqrtf b (rx, ry, rw, rh)).y = b.y - b.r) ∨
     (ry + rh - b.y ≤ b.x - rx ∧ ry + rh - b.y ≤ rx + rw - b.x ∧ ry + rh - b.y ≤ b.y - ry ∧
        (resolveWall sqrtf b (rx, ry, rw, rh)).x = b.x ∧
        (resolveWall sqrtf b (rx, ry, rw, rh)).y = b.y + b.r)) := by
  have hclx : clamp b.x rx (rx + rw) = b.x := by
    unfold clamp
    rw [if_neg (by linarith), if_neg (by linarith)]
  have hcly : clamp b.y ry (ry + rh) = b.y := by
    unfold clamp
    rw [if_neg (by linarith), if_neg (by linarith)]
  have habsL : |b.x - rx| = b.x - rx := abs_of_pos (by linarith)
  have habsR : |rx + rw - b.x| = rx + rw - b.x := abs_of_pos (by linarith)
  have habsB : |b.y - ry| = b.y - ry := abs_of_pos (by linarith)
  have habsT : |ry + rh - b.y| = ry + rh - b.y := abs_of_pos (by linarith)
  simp only [resolveWall]
  rw [hclx, hcly]
  simp only [sub_self, mul_zero, add_zero, gt_iff_lt, lt_self_iff_false, if_false]
  rw [if_pos (mul_pos hr hr)]
  simp only [if_true]
  rw [habsL, habsR, habsB, habsT]
  split_ifs with h1 h2 h3
  · refine ⟨⟨trivial, trivial, trivial⟩, Or.inl ⟨?_, ?_, ?_, by ring, by ring⟩⟩
    · rw [← h1]; exact le_trans (min_le_left _ _) (min_le_right _ _)
    · rw [← h1]; exact le_trans (min_le_right _ _) (min_le_left _ _)
    · rw [← h1]; exact le_trans (min_le_right _ _) (min_le_right _ _)
  · refine ⟨⟨trivial, trivial, trivial⟩, Or.inr (Or.inl ⟨?_, ?_, ?_, by ring, by ring⟩)⟩
    · rw [← h2]; exact le_trans (min_le_left _ _) (min_le_left _ _)
    · rw [← h2]; exact le_trans (min_le_right _ _) (min_le_left _ _)
    · rw [← h2]; exact le_trans (min_le_right _ _) (min_le_right _ _)
  · refine ⟨⟨trivial, trivial, trivial⟩, Or.inr (Or.inr (Or.inl ⟨?_, ?_, ?_, by ring, by ring⟩))⟩
    · rw [← h3]; exact le_trans (min_le_left _ _) (min_le_left _ _)
    · rw [← h3]; exact le_trans (min_le_left _ _) (min_le_right _ _)
    · rw [← h3]; exact le_trans (min_le_right _ _) (min_le_right _ _)
  · have hm : (b.x - rx) ⊓ (rx + rw - b.x) ⊓ ((b.y - ry) ⊓ (ry + rh - b.y))
        = ry + rh - b.y := by
      rcases min_choice ((b.x - rx) ⊓ (rx + rw - b.x)) ((b.y - ry) ⊓ (ry + rh - b.y)) with hc | hc
      · rcases min_choice (b.x - rx) (rx + rw - b.x) with hc2 | hc2
        · exact absurd (hc.trans hc2) h1
        · exact absurd (hc.trans hc2) h2
      · rcases min_choice (b.y - ry) (ry + rh - b.y) with hc2 | hc2
        · exact absurd (hc.trans hc2) h3
        · exact hc.trans hc2
    refine ⟨⟨trivial, trivial, trivial⟩, Or.inr (Or.inr (Or.inr ⟨?_, ?_, ?_, by ring, by ring⟩))⟩
    · rw [← hm]; exact le_trans (min_le_left _ _) (min_le_left _ _)
    · rw [← hm]; exact le_trans (min_le_left _ _) (min_le_right _ _)
    · rw [← hm]; exact le_trans (min_le_right _ _) (min_le_left _ _)

/-- A wall the ball does not penetrate leaves the ball unchanged. -/
theorem resolveWall_no_overlap (sqrtf : ℚ → ℚ) (b : KBall) (w : Rect)
    (h : ¬ ((b.x - clamp b.x w.1 (w.1 + w.2.2.1)) * (b.x - clamp b.x w.1 (w.1 + w.2.2.1))
        + (b.y - clamp b.y w.2.1 (w.2.1 + w.2.2.2)) * (b.y - clamp b.y w.2.1 (w.2.1 + w.2.2.2))
        < b.r * b.r)) :
    resolveWall sqrtf b w = b := by
  obtain ⟨rx, ry, rw, rh⟩ := w
  simp only [resolveWall]
  exact if_neg h

/-- The collision loop is the identity when no wall is penetrated. -/
theorem collide_no_overlap (sqrtf : ℚ → ℚ) (b : KBall) (walls : List Rect)
    (h : ∀ w ∈ walls, ¬ ((b.x - clamp b.x w.1 (w.1 + w.2.2.1)) * (b.x - clamp b.x w.1 (w.1 + w.2.2.1))
        + (b.y - clamp b.y w.2.1 (w.2.1 + w.2.2.2)) * (b.y - clamp b.y w.2.1 (w.2.1 + w.2.2.2))
        < b.r * b.r)) :
    KBall.collide sqrtf b walls = b := by
  induction walls with
  | nil => rfl
  | cons w ws ih =>
    have h1 := h w (List.mem_cons_self w ws)
    have h2 : ∀ u ∈ ws, ¬ ((b.x - clamp b.x u.1 (u.1 + u.2.2.1)) * (b.x - clamp b.x u.1 (u.1 + u.2.2.1))
        + (b.y - clamp b.y u.2.1 (u.2.1 + u.2.2.2)) * (b.y - clamp b.y u.2.1 (u.2.1 + u.2.2.2))
        < b.r * b.r) := fun u hu => h u (List.mem_cons_of_mem w hu)
    simp only [KBall.collide, List.foldl_cons]
    rw [resolveWall_no_overlap sqrtf b w h1]
    exact ih h2

/-- The friction stage never moves the ball and never switches `in_motion`
from false to true. -/
theorem applyFriction_pos_fields (sqrtf : ℚ → ℚ) (powf : ℚ → ℚ → ℚ) (c : KBall) (dt : ℚ) :
    (KBall.applyFriction sqrtf powf c dt).x = c.x ∧
    (KBall.applyFriction sqrtf powf c dt).y = c.y ∧
    ((KBall.applyFriction sqrtf powf c dt).in_motion = true → c.in_motion = true) := by
  simp only [KBall.applyFriction]
  split_ifs <;> simp

/-- `Agent.update` stores this tick's perception result in `chasing` in every
branch. -/
theorem update_fst_chasing (sqrtf cosf : ℚ → ℚ) (a : KAgent) (dt : ℚ)
    (ball : KBall) (walls : List Rect) :
    (KAgent.update sqrtf cosf a dt ball walls).1.chasing
      = KAgent.ballVisible sqrtf cosf a ball walls := by
  simp only [KAgent.update]
  split_ifs <;> rfl

/-- `ballVisible` never reads the `chasing` field. -/
theorem ballVisible_set_chasing (sqrtf cosf : ℚ → ℚ) (a : KAgent) (c : Bool)
    (ball : KBall) (walls : List Rect) :
    KAgent.ballVisible sqrtf cosf { a with chasing := c } ball walls
      = KAgent.ballVisible sqrtf cosf a ball walls := rfl

/-- `mergeNear` with an empty left candidate. -/
theorem mergeNear_none_left (x : Option (ℚ × Pt)) : mergeNear none x = x := by
  cases x <;> rfl

/-- `mergeNear` with an empty right candidate. -/
theorem mergeNear_none_right (x : Option (ℚ × Pt)) : mergeNear x none = x := by
  cases x <;> rfl

/-- `mergeNear` is associative: leftmost-preference minimum selection can be
bracketed either way. -/
theorem mergeNear_assoc (x y z : Option (ℚ × Pt)) :
    mergeNear (mergeNear x y) z = mergeNear x (mergeNear y z) := by
  cases x with
  | none => rw [mergeNear_none_left, mergeNear_none_left]
  | some a =>
    cases y with
    | none => rw [mergeNear_none_right, mergeNear_none_left]
    | some b =>
      cases z with
      | none => rw [mergeNear_none_right, mergeNear_none_right]
      | some c =>
        by_cases c1 : b.1 < a.1 <;> by_cases c2 : c.1 < b.1 <;> by_cases c3 : c.1 < a.1 <;>
          simp [mergeNear, c1, c2, c3] <;> first | rfl | linarith

/-- One step of the ray-sweep fold merges the accumulator with this wall's
hit, tagged with its squared distance. -/
theorem nearestHitStep_merge (o : Pt) (dx dy : ℚ) (acc : Option (ℚ × Pt)) (rect : Rect) :
    nearestHitStep o dx dy acc rect
      = mergeNear acc ((ray_rect_nearest_hit o.1 o.2 dx dy rect).map
          (fun pt => ((pt.1 - o.1) ^ 2 + (pt.2 - o.2) ^ 2, pt))) := by
  cases hray : ray_rect_nearest_hit o.1 o.2 dx dy rect with
  | none =>
    cases acc with
    | none => delta nearestHitStep; rw [hray]; rfl
    | some q => delta nearestHitStep; rw [hray]; rfl
  | some pt =>
    cases acc with
    | none => delta nearestHitStep; rw [hray]; rfl
    | some q =>
      obtain ⟨nd2, bp⟩ := q
      delta nearestHitStep
      rw [hray]
      rfl

/-- Structural recursion step of the declarative nearest-hit selector. -/
theorem selNearest_cons (o : Pt) (p : Pt) (l : List Pt) :
    selNearest o (p :: l)
      = mergeNear (some ((p.1 - o.1) ^ 2 + (p.2 - o.2) ^ 2, p)) (selNearest o l) := by
  cases hs : selNearest o l with
  | none => simp [selNearest, mergeNear, hs]
  | some b =>
    simp only [selNearest, hs, mergeNear]
    split_ifs with h1 h2 h2 <;> first | rfl | linarith

/-- The source's per-wall fold computes exactly the declarative nearest-hit
selection over the list of per-wall hits. -/
theorem foldl_nearestHitStep (o : Pt) (dx dy : ℚ) (walls : List Rect) (acc : Option (ℚ × Pt)) :
    walls.foldl (nearestHitStep o dx dy) acc
      = mergeNear acc (selNearest o (walls.filterMap (ray_rect_nearest_hit o.1 o.2 dx dy))) := by
  induction walls generalizing acc with
  | nil => simp [selNearest, mergeNear_none_right]
  | cons w ws ih =>
    simp only [List.foldl_cons, List.filterMap_cons]
    cases hray : ray_rect_nearest_hit o.1 o.2 dx dy w with
    | none =>
      have hstep : nearestHitStep o dx dy acc w = acc := by
        rw [nearestHitStep_merge, hray]
        exact mergeNear_none_right acc
      rw [hstep, ih]
    | some pt =>
      have hstep : nearestHitStep o dx dy acc w
          = mergeNear acc (some ((pt.1 - o.1) ^ 2 + (pt.2 - o.2) ^ 2, pt)) := by
        rw [nearestHitStep_merge, hray]
        rfl
      rw [hstep, ih, selNearest_cons, ← mergeNear_assoc]

/-! ## Claim C9 -/

/-- Claim C9: `compute_flashlight_polygon` returns exactly `ray_steps + 1`
points sampled at evenly spaced angles sweeping from `facing + fov_half` to
`facing - fov_half`, each point being the nearest wall hit by squared
distance over all walls when that hit is within `cone_len`, and the
full-length cone endpoint otherwise — i.e. it coincides with the declarative
`fovPolygonSpec`. -/
theorem flashlight_polygon_spec (cosf sinf : ℚ → ℚ) (atan2f : ℚ → ℚ → ℚ)
    (a : KAgent) (walls : List Rect) :
    KAgent.compute_flashlight_polygon cosf sinf atan2f a walls
      = fovPolygonSpec cosf sinf atan2f a walls ∧
    (KAgent.compute_flashlight_polygon cosf sinf atan2f a walls).length = a.ray_steps + 1 := by
  constructor
  · simp only [KAgent.compute_flashlight_polygon, fovPolygonSpec]
    apply List.map_congr_left
    intro i _
    have hang : atan2f a.look_diry a.look_dirx + a.fov_half
        + (atan2f a.look_diry a.look_dirx - a.fov_half
            - (atan2f a.look_diry a.look_dirx + a.fov_half)) * ((i : ℚ) / (a.ray_steps : ℚ))
        = atan2f a.look_diry a.look_dirx + a.fov_half
            - 2 * a.fov_half * ((i : ℚ) / (a.ray_steps : ℚ)) := by ring
    rw [hang, foldl_nearestHitStep, mergeNear_none_left]
    cases hsel : selNearest (a.x, a.y)
        (walls.filterMap (ray_rect_nearest_hit a.x a.y
          (cosf (atan2f a.look_diry a.look_dirx + a.fov_half
            - 2 * a.fov_half * ((i : ℚ) / (a.ray_steps : ℚ))))
          (sinf (atan2f a.look_diry a.look_dirx + a.fov_half
            - 2 * a.fov_half * ((i : ℚ) / (a.ray_steps : ℚ)))))) with
    | none => rfl
    | some q =>
      obtain ⟨d2, p⟩ := q
      simp only
      split_ifs with h1 h2 h2 <;> first | rfl | linarith
  · rw [KAgent.compute_flashlight_polygon]
    rw [List.length_map, List.length_range]

/-! ## Claim C10 -/

/-- Claim C10: in the Kivy variants `apply_impulse` sets `in_motion`
unconditionally: `apply_impulse(0, 0)` leaves the velocity unchanged yet
transitions the ball into the moving state. -/
theorem apply_impulse_zero_marks_moving (b : KBall) :
    (b.apply_impulse 0 0).vx = b.vx ∧ (b.apply_impulse 0 0).vy = b.vy ∧
    (b.apply_impulse 0 0).in_motion = true := by
  simp [KBall.apply_impulse]

/-! ## Claim C6 -/

/-- Claim C6: after `Agent.update` the `chasing` flag equals exactly this
tick's visibility result for the ball, whatever the previous `chasing` value
was — the flag carries no hysteresis across ticks. -/
theorem chasing_is_pure_perception (sqrtf cosf : ℚ → ℚ) (a : KAgent) (dt : ℚ)
    (ball : KBall) (walls : List Rect) (c c' : Bool) :
    ((KAgent.update sqrtf cosf { a with chasing := c } dt ball walls).1.chasing
      = KAgent.ballVisible sqrtf cosf a ball walls) ∧
    ((KAgent.update sqrtf cosf { a with chasing := c } dt ball walls).1.chasing
      = (KAgent.update sqrtf cosf { a with chasing := c' } dt ball walls).1.chasing) := by
  refine ⟨?_, ?_⟩
  · rw [update_fst_chasing, ballVisible_set_chasing]
  · rw [update_fst_chasing, update_fst_chasing]
    rfl

/-! ## Claim C1 -/

/-- Claim C1, corrected: line-of-sight blocking is symmetric provided no edge
crossing parameter lies in the one-sided epsilon margins `(0, 1e-6]` or
`[1 - 1e-6, 1)`; the code's blocking window `0 < t < 1 - 1e-6` carries its
epsilon only at the far end, so crossings inside those margins block in one
direction only. -/
theorem los_blocked_symm (ox oy tx ty : ℚ) (walls : List Rect)
    (h : ∀ w ∈ walls, ∀ e ∈ rectEdges w,
        (seg_intersect (ox, oy) (tx, ty) e.1 e.2).hit = true →
        (seg_intersect (ox, oy) (tx, ty) e.1 e.2).t = 0 ∨
        (1 / 1000000 < (seg_intersect (ox, oy) (tx, ty) e.1 e.2).t ∧
          (seg_intersect (ox, oy) (tx, ty) e.1 e.2).t < 1 - 1 / 1000000) ∨
        (seg_intersect (ox, oy) (tx, ty) e.1 e.2).t = 1) :
    los_blocked tx ty ox oy walls = los_blocked ox oy tx ty walls := by
  refine Bool.eq_iff_iff.mpr ?_
  simp only [los_blocked, List.any_eq_true, Bool.and_eq_true, decide_eq_true_eq]
  constructor
  · rintro ⟨w, hw, e, he, ⟨⟨hhit, h0⟩, h1⟩⟩
    obtain ⟨hhit_eq, ht_eq⟩ := seg_intersect_rev (ox, oy) (tx, ty) e.1 e.2
    have hf : (seg_intersect (ox, oy) (tx, ty) e.1 e.2).hit = true := by
      rw [← hhit_eq]; exact hhit
    have htv := ht_eq hf
    rcases h w hw e he hf with h00 | ⟨ha, hb⟩ | h11
    · rw [htv, h00] at h1; norm_num at h1
    · exact ⟨w, hw, e, he, ⟨⟨hf, by linarith⟩, hb⟩⟩
    · rw [htv, h11] at h0; norm_num at h0
  · rintro ⟨w, hw, e, he, ⟨⟨hhit, h0⟩, h1⟩⟩
    obtain ⟨hhit_eq, ht_eq⟩ := seg_intersect_rev (ox, oy) (tx, ty) e.1 e.2
    have htv := ht_eq hhit
    rcases h w hw e he hhit with h00 | ⟨ha, hb⟩ | h11
    · rw [h00] at h0; norm_num at h0
    · refine ⟨w, hw, e, he, ⟨⟨by rw [hhit_eq]; exact hhit, ?_⟩, ?_⟩⟩
      · rw [htv]; linarith
      · rw [htv]; linarith
    · rw [h11] at h1; norm_num at h1

/-- Claim C1 as stated is false: the segment from just above the wall's top
edge down into the wall crosses that edge at parameter `t = 1e-7`.  In the
downward direction `0 < 1e-7 < 1 - 1e-6` blocks; in the upward direction the
crossing sits at `t = 1 - 1e-7`, inside the far-end epsilon margin, and does
not block. -/
theorem los_blocked_symm_cex :
    los_blocked 5 (10 + 5 / 9999999) 5 5 [(0, 0, 10, 10)] = true ∧
    los_blocked 5 5 5 (10 + 5 / 9999999) [(0, 0, 10, 10)] = false := by
  constructor <;> norm_num [los_blocked, rectEdges, seg_intersect, abs_lt]

/-- Witness for the corrected C1 theorem: a segment crossing the wall's right
edge at `t = 1/2` (outside both margins) blocks identically in both
directions. -/
theorem los_blocked_symm_witness :
    los_blocked 5 5 15 5 [(0, 0, 10, 10)] = los_blocked 15 5 5 5 [(0, 0, 10, 10)] := by
  refine los_blocked_symm 15 5 5 5 [(0, 0, 10, 10)] ?_
  intro w hw e he
  simp only [List.mem_singleton] at hw
  subst hw
  fin_cases he <;> norm_num [seg_intersect, abs_lt]

/-! ## Claim C3 -/

/-- Claim C3: when the center-to-closest-point distance `d` is positive and
the normal velocity component `vn = v·n` is negative, the collision step
applies `v -= 1.8 * vn * n`, so the post-collision normal component equals
`-0.8` times the pre-collision one: the sign flips and the magnitude scales
by `0.8`. -/
theorem collision_restitution (sqrtf : ℚ → ℚ) (b : KBall) (rx ry rw rh d dx dy : ℚ)
    (hroot : ∀ q : ℚ, 0 ≤ q → sqrtf (q * q) = q)
    (hd : 0 < d) (hr : 0 < b.r)
    (hdx : dx = b.x - clamp b.x rx (rx + rw))
    (hdy : dy = b.y - clamp b.y ry (ry + rh))
    (hdd : dx * dx + dy * dy = d * d)
    (hcol : dx * dx + dy * dy < b.r * b.r)
    (hvn : b.vx * (dx / d) + b.vy * (dy / d) < 0) :
    (resolveWall sqrtf b (rx, ry, rw, rh)).vx * (dx / d)
      + (resolveWall sqrtf b (rx, ry, rw, rh)).vy * (dy / d)
      = -(8 / 10) * (b.vx * (dx / d) + b.vy * (dy / d)) := by
  have hnn : dx / d * (dx / d) + dy / d * (dy / d) = 1 := by
    field_simp
    linear_combination hdd
  rw [resolveWall_bounce sqrtf b rx ry rw rh d dx dy hroot hd hr hdx hdy hdd hcol hvn]
  simp only
  linear_combination (-(18 / 10) * (b.vx * (dx / d) + b.vy * (dy / d))) * hnn

/-- Witness for C3: a ball at `(13,14)` with velocity `(-3,-4)` hitting the
corner of wall `(0,0,10,10)` at distance `5` (normal `(3/5, 4/5)`, `vn = -5`)
rebounds with normal component `4 = 0.8 * 5`. -/
theorem collision_restitution_witness :
    (0 : ℚ) < 5 ∧ (3 : ℚ) * 3 + 4 * 4 = 5 * 5 ∧ (3 : ℚ) * 3 + 4 * 4 < 14 * 14 ∧
    (-3 : ℚ) * (3 / 5) + (-4) * (4 / 5) < 0 ∧
    (resolveWall Rat.sqrt ⟨13, 14, -3, -4, 14, 0, true⟩ (0, 0, 10, 10)).vx * (3 / 5)
      + (resolveWall Rat.sqrt ⟨13, 14, -3, -4, 14, 0, true⟩ (0, 0, 10, 10)).vy * (4 / 5)
      = -(8 / 10) * ((-3) * (3 / 5) + (-4) * (4 / 5)) := by
  refine ⟨by norm_num, by norm_num, by norm_num, by norm_num, ?_⟩
  have h := collision_restitution Rat.sqrt ⟨13, 14, -3, -4, 14, 0, true⟩ 0 0 10 10 5 3 4
    ratSqrtRoot (by norm_num) (by norm_num) (by norm_num [clamp]) (by norm_num [clamp])
    (by norm_num) (by norm_num) (by norm_num)
  simpa using h

/-! ## Claim C2 -/

/-- Claim C2, corrected: with zero velocity and the center strictly inside a
wall rectangle by more than `r` on every side, one `update` call displaces the
center by exactly `r` along the outward direction of the minimum of the four
edge distances, zeroes the velocity, and clears `in_motion`; the center
remains strictly INSIDE the rectangle (penetration reduced by `r`), it does
not end up outside by at least `r`. -/
theorem inside_push_min_axis (sqrtf : ℚ → ℚ) (powf : ℚ → ℚ → ℚ) (b : KBall)
    (rx ry rw rh dt : ℚ)
    (h0 : sqrtf 0 = 0) (hvx : b.vx = 0) (hvy : b.vy = 0) (hr : 0 < b.r)
    (hl : rx + b.r < b.x) (hri : b.x < rx + rw - b.r)
    (hb : ry + b.r < b.y) (htp : b.y < ry + rh - b.r) :
    ((KBall.update sqrtf powf b dt [(rx, ry, rw, rh)]).vx = 0 ∧
     (KBall.update sqrtf powf b dt [(rx, ry, rw, rh)]).vy = 0 ∧
     (KBall.update sqrtf powf b dt [(rx, ry, rw, rh)]).in_motion = false) ∧
    (rx < (KBall.update sqrtf powf b dt [(rx, ry, rw, rh)]).x ∧
     (KBall.update sqrtf powf b dt [(rx, ry, rw, rh)]).x < rx + rw ∧
     ry < (KBall.update sqrtf powf b dt [(rx, ry, rw, rh)]).y ∧
     (KBall.update sqrtf powf b dt [(rx, ry, rw, rh)]).y < ry + rh) ∧
    ((b.x - rx ≤ rx + rw - b.x ∧ b.x - rx ≤ b.y - ry ∧ b.x - rx ≤ ry + rh - b.y ∧
        (KBall.update sqrtf powf b dt [(rx, ry, rw, rh)]).x = b.x - b.r ∧
        (KBall.update sqrtf powf b dt [(rx, ry, rw, rh)]).y = b.y) ∨
     (rx + rw - b.x ≤ b.x - rx ∧ rx + rw - b.x ≤ b.y - ry ∧ rx + rw - b.x ≤ ry + rh - b.y ∧
        (KBall.update sqrtf powf b dt [(rx, ry, rw, rh)]).x = b.x + b.r ∧
        (KBall.update sqrtf powf b dt [(rx, ry, rw, rh)]).y = b.y) ∨
     (b.y - ry ≤ b.x - rx ∧ b.y - ry ≤ rx + rw - b.x ∧ b.y - ry ≤ ry + rh - b.y ∧
        (KBall.update sqrtf powf b dt [(rx, ry, rw, rh)]).x = b.x ∧
        (KBall.update sqrtf powf b dt [(rx, ry, rw, rh)]).y = b.y - b.r) ∨
     (ry + rh - b.y ≤ b.x - rx ∧ ry + rh - b.y ≤ rx + rw - b.x ∧ ry + rh - b.y ≤ b.y - ry ∧
        (KBall.update sqrtf powf b dt [(rx, ry, rw, rh)]).x = b.x ∧
        (KBall.update sqrtf powf b dt [(rx, ry, rw, rh)]).y = b.y + b.r)) := by
  have hint : b.integrate dt = b := by
    have hx2 : b.x + b.vx * dt = b.x := by rw [hvx]; ring
    have hy2 : b.y + b.vy * dt = b.y := by rw [hvy]; ring
    rw [KBall.integrate, hx2, hy2]
  have hcol1 : KBall.collide sqrtf b [(rx, ry, rw, rh)]
      = resolveWall sqrtf b (rx, ry, rw, rh) := by
    simp [KBall.collide]
  obtain ⟨⟨hvx', hvy', _⟩, hdisj⟩ :=
    resolveWall_inside sqrtf b rx ry rw rh hr (by linarith) (by linarith)
      (by linarith) (by linarith)
  have hfr := applyFriction_zero_vel sqrtf powf (resolveWall sqrtf b (rx, ry, rw, rh)) dt h0
    (hvx'.trans hvx) (hvy'.trans hvy)
  have hupd : KBall.update sqrtf powf b dt [(rx, ry, rw, rh)]
      = KBall.tickSmoke
          { resolveWall sqrtf b (rx, ry, rw, rh) with vx := 0, vy := 0, in_motion := false } dt := by
    rw [KBall.update, hint, hcol1, hfr]
  obtain ⟨hx1, hy1, hvx1, hvy1, him1⟩ := tickSmoke_fields
    { resolveWall sqrtf b (rx, ry, rw, rh) with vx := 0, vy := 0, in_motion := false } dt
  have hrx : (KBall.update sqrtf powf b dt [(rx, ry, rw, rh)]).x
      = (resolveWall sqrtf b (rx, ry, rw, rh)).x := by
    rw [hupd]; simpa using hx1
  have hry : (KBall.update sqrtf powf b dt [(rx, ry, rw, rh)]).y
      = (resolveWall sqrtf b (rx, ry, rw, rh)).y := by
    rw [hupd]; simpa using hy1
  refine ⟨⟨by rw [hupd]; simpa using hvx1, by rw [hupd]; simpa using hvy1,
      by rw [hupd]; simpa using him1⟩, ?_, ?_⟩
  · rcases hdisj with ⟨_, _, _, hx, hy⟩ | ⟨_, _, _, hx, hy⟩ | ⟨_, _, _, hx, hy⟩ | ⟨_, _, _, hx, hy⟩ <;>
      rw [hrx.trans hx, hry.trans hy] <;>
      exact ⟨by linarith, by linarith, by linarith, by linarith⟩
  · rcases hdisj with ⟨ha, hbb, hcc, hx, hy⟩ | ⟨ha, hbb, hcc, hx, hy⟩ |
      ⟨ha, hbb, hcc, hx, hy⟩ | ⟨ha, hbb, hcc, hx, hy⟩
    · exact Or.inl ⟨ha, hbb, hcc, hrx.trans hx, hry.trans hy⟩
    · exact Or.inr (Or.inl ⟨ha, hbb, hcc, hrx.trans hx, hry.trans hy⟩)
    · exact Or.inr (Or.inr (Or.inl ⟨ha, hbb, hcc, hrx.trans hx, hry.trans hy⟩))
    · exact Or.inr (Or.inr (Or.inr ⟨ha, hbb, hcc, hrx.trans hx, hry.trans hy⟩))

/-- Claim C2 as stated is false: ball of radius `14` at `(50, 40)` inside wall
`(0, 0, 100, 100)` (minimal depth `40 > 14` at the bottom edge) ends at
`(50, 26)` after one update — still strictly inside the rectangle, not outside
by at least `r`. -/
theorem inside_push_cex :
    (KBall.update sqrtZero powIdent ⟨50, 40, 0, 0, 14, 0, false⟩ 1 [(0, 0, 100, 100)]).x = 50 ∧
    (KBall.update sqrtZero powIdent ⟨50, 40, 0, 0, 14, 0, false⟩ 1 [(0, 0, 100, 100)]).y = 26 ∧
    ((0 : ℚ) < 26 ∧ (26 : ℚ) < 100) := by
  norm_num [KBall.update, KBall.integrate, KBall.collide, KBall.applyFriction, KBall.tickSmoke,
    resolveWall, clamp, length, normalize, sqrtZero, powIdent, LOW_SPEED_THRESHOLD, min_def]

/-- Witness for the corrected C2 theorem: the ball at `(50, 40)` moves down by
exactly `r = 14` (bottom edge distance `40` is minimal) and comes to rest. -/
theorem inside_push_min_axis_witness :
    ((0 : ℚ) + 14 < 50 ∧ (50 : ℚ) < 0 + 100 - 14 ∧ (0 : ℚ) + 14 < 40 ∧ (40 : ℚ) < 0 + 100 - 14) ∧
    (KBall.update sqrtZero powIdent ⟨50, 40, 0, 0, 14, 0, false⟩ 1 [(0, 0, 100, 100)]).x = 50 ∧
    (KBall.update sqrtZero powIdent ⟨50, 40, 0, 0, 14, 0, false⟩ 1 [(0, 0, 100, 100)]).y = 26 ∧
    (KBall.update sqrtZero powIdent ⟨50, 40, 0, 0, 14, 0, false⟩ 1 [(0, 0, 100, 100)]).in_motion = false := by
  have h := inside_push_min_axis sqrtZero powIdent ⟨50, 40, 0, 0, 14, 0, false⟩ 0 0 100 100 1
    rfl rfl rfl (by norm_num) (by norm_num) (by norm_num) (by norm_num) (by norm_num)
  refine ⟨⟨by norm_num, by norm_num, by norm_num, by norm_num⟩, ?_, ?_, h.1.2.2⟩
  · rcases h.2.2 with ⟨_, hq, _⟩ | ⟨_, hq, _⟩ | ⟨_, _, _, hx, _⟩ | ⟨_, _, hq, _⟩
    · norm_num at hq
    · norm_num at hq
    · norm_num at hx; exact hx
    · norm_num at hq
  · rcases h.2.2 with ⟨_, hq, _⟩ | ⟨_, hq, _⟩ | ⟨_, _, _, _, hy⟩ | ⟨_, _, hq, _⟩
    · norm_num at hq
    · norm_num at hq
    · norm_num at hy; exact hy
    · norm_num at hq

/-! ## Claim C7 -/

/-- Claim C7: a patrolling agent (ball not visible this tick) whose remaining
distance to the current target endpoint fits into this tick's travel
(`dist <= patrol_speed * dt`) is snapped exactly onto that endpoint, its
patrol direction sign is flipped, and its facing becomes the unit vector
toward the new target; in particular the position is exactly A or B at the
flip, so no overshoot can accumulate across ticks. -/
theorem patrol_snap (sqrtf cosf : ℚ → ℚ) (a : KAgent) (dt : ℚ) (ball : KBall)
    (walls : List Rect) (dist : ℚ)
    (hroot : ∀ q : ℚ, 0 ≤ q → sqrtf (q * q) = q)
    (hvis : KAgent.ballVisible sqrtf cosf a ball walls = false)
    (hdist0 : 0 ≤ dist)
    (hd2 : ((if a.dir > 0 then a.bx else a.ax) - a.x) * ((if a.dir > 0 then a.bx else a.ax) - a.x)
         + ((if a.dir > 0 then a.b_y else a.ay) - a.y) * ((if a.dir > 0 then a.b_y else a.ay) - a.y)
         = dist * dist)
    (hstep : dist ≤ a.patrol_speed * dt) :
    (KAgent.update sqrtf cosf a dt ball walls).1.x = (if a.dir > 0 then a.bx else a.ax) ∧
    (KAgent.update sqrtf cosf a dt ball walls).1.y = (if a.dir > 0 then a.b_y else a.ay) ∧
    (KAgent.update sqrtf cosf a dt ball walls).1.dir = -a.dir ∧
    (((KAgent.update sqrtf cosf a dt ball walls).1.x,
      (KAgent.update sqrtf cosf a dt ball walls).1.y) = (a.ax, a.ay) ∨
     ((KAgent.update sqrtf cosf a dt ball walls).1.x,
      (KAgent.update sqrtf cosf a dt ball walls).1.y) = (a.bx, a.b_y)) ∧
    ((KAgent.update sqrtf cosf a dt ball walls).1.look_dirx,
     (KAgent.update sqrtf cosf a dt ball walls).1.look_diry)
      = (if -a.dir > 0 then normalize sqrtf (a.bx - a.ax) (a.b_y - a.ay)
         else normalize sqrtf (a.ax - a.bx) (a.ay - a.b_y)) := by
  have hlen : length sqrtf ((if a.dir > 0 then a.bx else a.ax) - a.x)
      ((if a.dir > 0 then a.b_y else a.ay) - a.y) = dist := by
    rw [length, hd2]
    exact hroot dist hdist0
  simp only [KAgent.update, hvis, hlen]
  rw [if_pos hstep]
  by_cases hdir : a.dir > 0
  · simp only [hdir, if_true, if_pos hdir]
    by_cases hdir2 : -a.dir > 0
    · omega
    · simp only [if_neg hdir2]
      refine ⟨rfl, rfl, rfl, Or.inr rfl, rfl⟩
  · simp only [if_neg hdir]
    by_cases hdir2 : -a.dir > 0
    · simp only [if_pos hdir2]
      refine ⟨rfl, rfl, rfl, Or.inl rfl, rfl⟩
    · -- a.dir ≤ 0 and -a.dir ≤ 0 means a.dir = 0; the snapped agent has dir = 0 and
      -- takes the else facing branch on both sides
      simp only [if_neg hdir2]
      refine ⟨rfl, rfl, rfl, Or.inl rfl, rfl⟩

/-- Witness for C7: agent patrolling from `(0,0)` toward `(10,0)`, standing at
`(9,0)` with step `70 >= 1`, snaps exactly onto `(10,0)`, flips direction and
faces back toward `(0,0)`. -/
theorem patrol_snap_witness :
    KAgent.ballVisible Rat.sqrt cosHalfConst agentP ballSmoke [] = false ∧
    (0 : ℚ) ≤ 1 ∧ (1 : ℚ) ≤ agentP.patrol_speed * 1 ∧
    (KAgent.update Rat.sqrt cosHalfConst agentP 1 ballSmoke []).1.x = 10 ∧
    (KAgent.update Rat.sqrt cosHalfConst agentP 1 ballSmoke []).1.y = 0 ∧
    (KAgent.update Rat.sqrt cosHalfConst agentP 1 ballSmoke []).1.dir = -1 ∧
    (KAgent.update Rat.sqrt cosHalfConst agentP 1 ballSmoke []).1.look_dirx = -1 ∧
    (KAgent.update Rat.sqrt cosHalfConst agentP 1 ballSmoke []).1.look_diry = 0 := by
  have hvis : KAgent.ballVisible Rat.sqrt cosHalfConst agentP ballSmoke [] = false := by
    norm_num [KAgent.ballVisible, ballSmoke]
  have h := patrol_snap Rat.sqrt cosHalfConst agentP 1 ballSmoke [] 1 ratSqrtRoot hvis
    (by norm_num) (by norm_num [agentP]) (by norm_num [agentP])
  obtain ⟨hx, hy, hdir, _, hlook⟩ := h
  have h100 : Rat.sqrt (100 : ℚ) = 10 := by
    rw [show (100 : ℚ) = 10 * 10 by norm_num]
    exact ratSqrtRoot 10 (by norm_num)
  norm_num [agentP] at hx hy hdir
  norm_num [agentP, normalize, length, h100] at hlook
  exact ⟨hvis, by norm_num, by norm_num [agentP], hx, hy, hdir, hlook.1, hlook.2⟩

/-! ## Claim C8 -/

/-- Claim C8, corrected: `update(0, walls)` leaves the position unchanged
provided the ball does not currently penetrate any wall (collision resolution
runs regardless of `dt`), and it never switches `in_motion` from false to
true; it can still switch `in_motion` to false when the speed is below the
stop or snap thresholds. -/
theorem update_zero_dt (sqrtf : ℚ → ℚ) (powf : ℚ → ℚ → ℚ) (b : KBall) (walls : List Rect)
    (h : ∀ w ∈ walls, ¬ ((b.x - clamp b.x w.1 (w.1 + w.2.2.1)) * (b.x - clamp b.x w.1 (w.1 + w.2.2.1))
        + (b.y - clamp b.y w.2.1 (w.2.1 + w.2.2.2)) * (b.y - clamp b.y w.2.1 (w.2.1 + w.2.2.2))
        < b.r * b.r)) :
    (KBall.update sqrtf powf b 0 walls).x = b.x ∧
    (KBall.update sqrtf powf b 0 walls).y = b.y ∧
    ((KBall.update sqrtf powf b 0 walls).in_motion = true → b.in_motion = true) := by
  have hint : b.integrate 0 = b := by
    have hx2 : b.x + b.vx * 0 = b.x := by ring
    have hy2 : b.y + b.vy * 0 = b.y := by ring
    rw [KBall.integrate, hx2, hy2]
  rw [KBall.update, hint, collide_no_overlap sqrtf b walls h]
  obtain ⟨hfx, hfy, hfi⟩ := applyFriction_pos_fields sqrtf powf b 0
  obtain ⟨hsx, hsy, _, _, hsi⟩ := tickSmoke_fields (KBall.applyFriction sqrtf powf b 0) 0
  exact ⟨hsx.trans hfx, hsy.trans hfy, fun hm => hfi (hsi.symm.trans hm)⟩

/-- Claim C8 as stated is false on both counts: a resting ball with
`in_motion = True` has `in_motion` flipped to false by `update(0, [])`, and a
ball overlapping a wall is pushed (from y = 40 to y = 26) even with `dt = 0`.
-/
theorem update_zero_dt_cex :
    (KBall.update sqrtZero powIdent ⟨0, 0, 0, 0, 14, 0, true⟩ 0 []).in_motion = false ∧
    (⟨0, 0, 0, 0, 14, 0, true⟩ : KBall).in_motion = true ∧
    (KBall.update sqrtZero powIdent ⟨50, 40, 0, 0, 14, 0, true⟩ 0 [(0, 0, 100, 100)]).y = 26 ∧
    (⟨50, 40, 0, 0, 14, 0, true⟩ : KBall).y = 40 := by
  refine ⟨?_, rfl, ?_, rfl⟩ <;>
    norm_num [KBall.update, KBall.integrate, KBall.collide, KBall.applyFriction,
      KBall.tickSmoke, resolveWall, clamp, length, normalize, sqrtZero, powIdent,
      LOW_SPEED_THRESHOLD, min_def]

/-- Witness for the corrected C8 theorem: a moving ball away from the wall
keeps its position exactly under `update(0, walls)`. -/
theorem update_zero_dt_witness :
    (KBall.update sqrtZero powIdent ⟨200, 300, 7, 0, 14, 0, true⟩ 0 [(0, 0, 100, 100)]).x = 200 ∧
    (KBall.update sqrtZero powIdent ⟨200, 300, 7, 0, 14, 0, true⟩ 0 [(0, 0, 100, 100)]).y = 300 := by
  have h := update_zero_dt sqrtZero powIdent ⟨200, 300, 7, 0, 14, 0, true⟩ [(0, 0, 100, 100)]
    (by intro w hw; simp only [List.mem_singleton] at hw; subst hw; norm_num [clamp])
  exact ⟨h.1, h.2.1⟩

/-! ## Claim C4 -/

/-- Claim C4, corrected: for a post-collision speed `5 <= s < 140`, the
friction stage multiplies the velocity by `0.985` and then by the blended
damping factor raised to `max(1, dt*60)` — not `dt*60` — and snaps velocity
to zero with `in_motion := false` exactly when the damped speed falls below
`30`. -/
theorem low_speed_damping (sqrtf : ℚ → ℚ) (powf : ℚ → ℚ → ℚ) (b : KBall) (dt s damp : ℚ)
    (hroot : ∀ q : ℚ, 0 ≤ q → sqrtf (q * q) = q)
    (hs : b.vx * b.vx + b.vy * b.vy = s * s) (hs0 : 0 ≤ s)
    (h5 : 5 ≤ s) (h140 : s < 140)
    (hdampdef : damp = powf
        (LOW_SPEED_DAMP_BASE * (1 - max 0 (min 1 (1 - s / LOW_SPEED_THRESHOLD)))
          + LOW_SPEED_DAMP_NEAR * max 0 (min 1 (1 - s / LOW_SPEED_THRESHOLD)))
        (max 1 (dt * 60)))
    (hdamp0 : 0 ≤ damp) :
    (985 / 1000 * damp * s < 30 →
      (KBall.update sqrtf powf b dt []).vx = 0 ∧
      (KBall.update sqrtf powf b dt []).vy = 0 ∧
      (KBall.update sqrtf powf b dt []).in_motion = false) ∧
    (30 ≤ 985 / 1000 * damp * s →
      (KBall.update sqrtf powf b dt []).vx = b.vx * (985 / 1000) * damp ∧
      (KBall.update sqrtf powf b dt []).vy = b.vy * (985 / 1000) * damp ∧
      (KBall.update sqrtf powf b dt []).in_motion = b.in_motion) := by
  have hspeed : length sqrtf (b.integrate dt).vx (b.integrate dt).vy = s := by
    show sqrtf (b.vx * b.vx + b.vy * b.vy) = s
    rw [hs]
    exact hroot s hs0
  have hw0 : 0 ≤ 985 / 1000 * damp * s := by positivity
  have hsnap : length sqrtf ((b.integrate dt).vx * (985 / 1000) * damp)
      ((b.integrate dt).vy * (985 / 1000) * damp) = 985 / 1000 * damp * s := by
    show sqrtf (b.vx * (985 / 1000) * damp * (b.vx * (985 / 1000) * damp)
      + b.vy * (985 / 1000) * damp * (b.vy * (985 / 1000) * damp)) = 985 / 1000 * damp * s
    have harg : b.vx * (985 / 1000) * damp * (b.vx * (985 / 1000) * damp)
        + b.vy * (985 / 1000) * damp * (b.vy * (985 / 1000) * damp)
        = 985 / 1000 * damp * s * (985 / 1000 * damp * s) := by
      linear_combination (985 / 1000 * damp * (985 / 1000) * damp) * hs
    rw [harg]
    exact hroot _ hw0
  have happ : KBall.applyFriction sqrtf powf (b.integrate dt) dt
      = if 985 / 1000 * damp * s < 30 then
          { b.integrate dt with vx := 0, vy := 0, in_motion := false }
        else
          { b.integrate dt with vx := (b.integrate dt).vx * (985 / 1000) * damp,
                                vy := (b.integrate dt).vy * (985 / 1000) * damp } := by
    simp only [KBall.applyFriction, hspeed]
    rw [if_neg (not_lt.mpr h5)]
    rw [if_pos (show s < LOW_SPEED_THRESHOLD from h140)]
    rw [← hdampdef, hsnap]
  have hupd : KBall.update sqrtf powf b dt []
      = KBall.tickSmoke (KBall.applyFriction sqrtf powf (b.integrate dt) dt) dt := rfl
  constructor
  · intro hlt
    rw [hupd, happ, if_pos hlt]
    obtain ⟨_, _, hvx1, hvy1, him1⟩ := tickSmoke_fields
      { b.integrate dt with vx := 0, vy := 0, in_motion := false } dt
    exact ⟨by simpa using hvx1, by simpa using hvy1, by simpa using him1⟩
  · intro hge
    rw [hupd, happ, if_neg (not_lt.mpr hge)]
    obtain ⟨_, _, hvx1, hvy1, him1⟩ := tickSmoke_fields
      { b.integrate dt with vx := (b.integrate dt).vx * (985 / 1000) * damp,
                            vy := (b.integrate dt).vy * (985 / 1000) * damp } dt
    exact ⟨by simpa [KBall.integrate] using hvx1, by simpa [KBall.integrate] using hvy1,
      by simpa [KBall.integrate] using him1⟩

/-- Claim C4 as stated is false: its exponent is `dt*60`, but the code clamps
the exponent from below at `1`.  At `dt = 1/120` and speed `100` the code
raises the blend `0.82` to the power `1` (giving `vx = 80.77`), while the
claimed exponent would be `1/2`; no power function with `x ** 1 = x` can make
the claimed formula match the code's result. -/
theorem low_speed_damping_cex :
    ¬ (∀ (sqrtf : ℚ → ℚ) (powf : ℚ → ℚ → ℚ),
        sqrtf 10000 = 100 → sqrtf (65237929 / 10000) = 8077 / 100 →
        (∀ x : ℚ, powf x 1 = x) →
        (KBall.update sqrtf powf ⟨0, 0, 100, 0, 14, 0, true⟩ (1 / 120) []).vx
          = 100 * (985 / 1000) * powf (41 / 50) ((1 / 120) * 60)) := by
  intro h
  have h1 := h sqrtLut (fun x e => 1 - e * (1 - x))
    (by norm_num [sqrtLut]) (by norm_num [sqrtLut])
    (fun x => by show 1 - 1 * (1 - x) = x; ring)
  norm_num [KBall.update, KBall.integrate, KBall.collide, KBall.applyFriction, KBall.tickSmoke,
    length, sqrtLut, LOW_SPEED_THRESHOLD, LOW_SPEED_DAMP_BASE, LOW_SPEED_DAMP_NEAR,
    min_def, max_def] at h1

/-- Witness for the corrected C4 theorem at `dt = 1/60`, speed `100`: the
blend is `0.82`, the exponent clamps to `1`, and the damped velocity
`100 * 0.985 * 0.82 = 80.77` stays above the snap threshold, so `in_motion`
is preserved. -/
theorem low_speed_damping_witness :
    ((100 : ℚ) * 100 + 0 * 0 = 100 * 100) ∧ (5 : ℚ) ≤ 100 ∧ (100 : ℚ) < 140 ∧
    (KBall.update Rat.sqrt powIdent ⟨0, 0, 100, 0, 14, 0, true⟩ (1 / 60) []).vx = 8077 / 100 ∧
    (KBall.update Rat.sqrt powIdent ⟨0, 0, 100, 0, 14, 0, true⟩ (1 / 60) []).in_motion = true := by
  have h := low_speed_damping Rat.sqrt powIdent ⟨0, 0, 100, 0, 14, 0, true⟩ (1 / 60) 100 (41 / 50)
    ratSqrtRoot (by norm_num) (by norm_num) (by norm_num) (by norm_num)
    (by norm_num [powIdent, LOW_SPEED_DAMP_BASE, LOW_SPEED_DAMP_NEAR, LOW_SPEED_THRESHOLD,
      min_def, max_def])
    (by norm_num)
  obtain ⟨hvx, hvy, him⟩ := h.2 (by norm_num)
  refine ⟨by norm_num, by norm_num, by norm_num, ?_, ?_⟩
  · rw [hvx]; norm_num
  · rw [him]

/-! ## Claim C5 -/

/-- Claim C5, corrected: a target exactly at the observer's position passes
the range check (distance `0 ≤ cone_len`) and the line-of-sight check, and the
zero vector normalizes to `(0,0)` without faulting, but the angle test still
runs with dot product `0`: the target is visible iff
`cos(fov_half + 1e-6) ≤ 0`, not unconditionally. -/
theorem visible_at_observer_iff (sqrtf cosf : ℚ → ℚ) (a : KAgent) (ball : KBall)
    (walls : List Rect) (h0 : sqrtf 0 = 0) (hcone : 0 ≤ a.cone_len)
    (hsm : ball.smoke_timer ≤ 0) (hx : ball.x = a.x) (hy : ball.y = a.y) :
    KAgent.ballVisible sqrtf cosf a ball walls
      = decide (cosf (a.fov_half + 1 / 1000000) ≤ 0) := by
  have hz : length sqrtf (ball.x - a.x) (ball.y - a.y) = 0 := by
    rw [hx, hy]
    simpa [length] using h0
  simp only [KAgent.ballVisible, normalize, hz, if_neg (not_lt.mpr hsm),
    if_pos hcone]
  rw [hx, hy, los_blocked_self]
  simp [ge_iff_le]

/-- Claim C5 as stated is false: with the in-range, unconcealed target exactly
at the observer's position, a cosine threshold of `1/2` (attained by the real
cosine at `fov_half = arccos(1/2) - 1e-6 > 0`) makes the agent NOT see the
ball, because the dot product `0` fails the angle test. -/
theorem visible_at_observer_cex :
    ¬ (∀ (sqrtf cosf : ℚ → ℚ) (a : KAgent) (ball : KBall) (walls : List Rect),
        (∀ q : ℚ, -1 ≤ cosf q ∧ cosf q ≤ 1) → sqrtf 0 = 0 → 0 ≤ a.cone_len →
        ball.smoke_timer ≤ 0 → ball.x = a.x → ball.y = a.y →
        KAgent.ballVisible sqrtf cosf a ball walls = true) := by
  intro h
  have h1 := h sqrtZero cosHalfConst agentZero ballAtOrigin []
    (fun q => by norm_num [cosHalfConst]) rfl
    (by norm_num [agentZero]) (by norm_num [ballAtOrigin])
    (by norm_num [agentZero, ballAtOrigin]) (by norm_num [agentZero, ballAtOrigin])
  norm_num [KAgent.ballVisible, agentZero, ballAtOrigin, sqrtZero, cosHalfConst,
    length, normalize, los_blocked] at h1

/-- Witness for the corrected C5 theorem at a concrete input: with threshold
`1/2` the agent does not see a ball at its own position. -/
theorem visible_at_observer_iff_witness :
    sqrtZero 0 = 0 ∧ (0 : ℚ) ≤ agentZero.cone_len ∧
    ballAtOrigin.smoke_timer ≤ 0 ∧ ballAtOrigin.x = agentZero.x ∧
    ballAtOrigin.y = agentZero.y ∧
    KAgent.ballVisible sqrtZero cosHalfConst agentZero ballAtOrigin [] = false := by
  refine ⟨rfl, by norm_num [agentZero], by norm_num [ballAtOrigin],
    by norm_num [ballAtOrigin, agentZero], by norm_num [ballAtOrigin, agentZero], ?_⟩
  rw [visible_at_observer_iff sqrtZero cosHalfConst agentZero ballAtOrigin []
    rfl (by norm_num [agentZero]) (by norm_num [ballAtOrigin])
    (by norm_num [ballAtOrigin, agentZero]) (by norm_num [ballAtOrigin, agentZero])]
  norm_num [cosHalfConst]

end StealthGolf
